import Mathlib

/-!
Shallow embedding of the recommendation and study-decision engine of the
student_upgrade backend, translated from
backend/app/services/recommendation_service.py and
backend/app/services/study_decision_service.py.

Conventions used throughout:
* a Mongo collection is a Lean list of documents in insertion (natural)
  order; find_one and update_one operate on the first matching document;
* Python floats are modelled as exact rationals, and as reals where
  math.sqrt occurs; timestamps such as datetime.utcnow() are integer
  seconds, and timedelta.days is floor division of the difference by 86400;
* presentation-only fields that the algorithms copy through untouched
  (title, type, url, description, thumbnail, tags) are elided from the
  document structures.
-/

namespace StudentUpgrade

/-- Python round() to an integer: banker's rounding, half to even. -/
def roundHalfEven (q : ℚ) : ℤ :=
  let f : ℤ := q.num.fdiv q.den
  if q - f = 1/2 then (if f % 2 = 0 then f else f + 1)
  else if q - f < 1/2 then f else f + 1

/-- Python round(x, 1): round to one decimal digit, half to even. -/
def round1 (q : ℚ) : ℚ := (roundHalfEven (10 * q) : ℚ) / 10

/-- A document of the user_ratings collection. -/
structure RatingDoc where
  user_id : String
  resource_id : String
  module_id : Option String
  rating : ℚ
  updated_at : ℤ
  deriving DecidableEq

/-- A document of the resources collection (presentation fields elided). -/
structure ResourceDoc where
  id : String
  module_id : Option String
  average_rating : ℚ
  rating_count : ℕ
  deriving DecidableEq

/-- The two Mongo collections used by RecommendationService. -/
structure DB where
  user_ratings : List RatingDoc
  resources : List ResourceDoc
  deriving DecidableEq

/-- Mongo update_one: modify the first matching document, if any. -/
def updateFirst {α : Type} (p : α → Bool) (f : α → α) : List α → List α
  | [] => []
  | x :: xs => if p x then f x :: xs else x :: updateFirst p f xs

/-- The filter used by rate_resource's update_one call: match on
(user_id, resource_id). -/
def ratingKey (u res : String) (d : RatingDoc) : Bool :=
  decide (d.user_id = u ∧ d.resource_id = res)

/-- Mongo update_one with upsert=True on user_ratings: replace the first
document matching the key, or append the new document when none matches. -/
def upsertRating (l : List RatingDoc) (u res : String) (doc : RatingDoc) : List RatingDoc :=
  if (l.find? (ratingKey u res)).isSome then updateFirst (ratingKey u res) (fun _ => doc) l
  else l ++ [doc]

/-- The rating values currently stored for a resource, collection order. -/
def valuesFor (l : List RatingDoc) (res : String) : List ℚ :=
  (l.filter fun d => decide (d.resource_id = res)).map (·.rating)

/-- RecommendationService._update_resource_average: aggregate the average
and count of the ratings of one resource and write them, the average
rounded to one decimal via Python round(.., 1), onto the first resource
document with that id; a no-op when the resource has no ratings at all
(the aggregation returns an empty result list). -/
def update_resource_average (db : DB) (res : String) : DB :=
  let vs := valuesFor db.user_ratings res
  if vs = [] then db
  else
    { db with
      resources :=
        updateFirst (fun r => decide (r.id = res))
          (fun r => { r with average_rating := round1 (vs.sum / vs.length),
                             rating_count := vs.length }) db.resources }

/-- Result of RecommendationService.rate_resource. -/
inductive RateResult where
  | error (msg : String)
  | success (rating : ℚ)
  deriving DecidableEq

/-- RecommendationService.rate_resource, database assumed connected:
validate the rating, upsert the user's rating document, then synchronously
recompute the resource's stored average. -/
def rate_resource (db : DB) (now : ℤ) (user_id resource_id : String)
    (rating : ℚ) (module_id : Option String) : RateResult × DB :=
  if rating < 1 ∨ rating > 5 then (RateResult.error "Rating must be between 1 and 5", db)
  else
    let doc : RatingDoc :=
      { user_id := user_id, resource_id := resource_id, module_id := module_id,
        rating := rating, updated_at := now }
    let db1 : DB := { db with user_ratings := upsertRating db.user_ratings user_id resource_id doc }
    (RateResult.success rating, update_resource_average db1 resource_id)

/-- Mongo find_one on resources by id (first match in collection order). -/
def storedResource (db : DB) (res : String) : Option ResourceDoc :=
  db.resources.find? fun r => decide (r.id = res)

/-- RecommendationService.get_user_ratings: every rating document of one
user, in collection order. -/
def get_user_ratings (db : DB) (user_id : String) : List RatingDoc :=
  db.user_ratings.filter fun d => decide (d.user_id = user_id)

/-- The ratings collection is well formed when no two documents carry the
same (user_id, resource_id) key; Mongo's unique upsert key maintains this. -/
def KeysUnique (l : List RatingDoc) : Prop :=
  l.Pairwise fun a b => ¬(a.user_id = b.user_id ∧ a.resource_id = b.resource_id)

/-- Ratings updated within the last 7 days: the first $match stage of
get_trending_resources. -/
def recentRatings (db : DB) (now : ℤ) : List RatingDoc :=
  db.user_ratings.filter fun d => decide (now - 7 * 86400 ≤ d.updated_at)

/-- First occurrences, in order, of the elements of a list (seen collects
the elements already emitted); models the deterministic first-appearance
order in which grouping emits its groups. -/
def firstOccurrences (seen : List String) : List String → List String
  | [] => []
  | x :: xs =>
    if x ∈ seen then firstOccurrences seen xs else x :: firstOccurrences (x :: seen) xs

/-- The recent (last 7 days) rating values of one resource. -/
def recentValues (db : DB) (now : ℤ) (rid : String) : List ℚ :=
  ((recentRatings db now).filter fun d => decide (d.resource_id = rid)).map (·.rating)

/-- One group produced by the $group stage of get_trending_resources. -/
structure TrendGroup where
  resource_id : String
  recent_ratings : ℕ
  avg_rating : ℚ
  deriving DecidableEq

/-- The $group stage of get_trending_resources: per resource_id occurring in
a recent rating, the count and the average of its recent ratings. -/
def trendGroups (db : DB) (now : ℤ) : List TrendGroup :=
  (firstOccurrences [] ((recentRatings db now).map (·.resource_id))).map fun rid =>
    let vs := recentValues db now rid
    { resource_id := rid, recent_ratings := vs.length, avg_rating := vs.sum / vs.length }

/-- Comparison of the $sort stage: recent_ratings descending, ties broken by
avg_rating descending. -/
def trendLE (a b : TrendGroup) : Bool :=
  decide (b.recent_ratings < a.recent_ratings ∨
    (b.recent_ratings = a.recent_ratings ∧ b.avg_rating ≤ a.avg_rating))

/-- Does a resource document pass the optional module_id filter? -/
def moduleMatches (module_id : Option String) (r : ResourceDoc) : Bool :=
  match module_id with
  | some m => decide (r.module_id = some m)
  | none => true

/-- RecommendationService.get_trending_resources: restrict to the last 7
days of ratings, group per resource, keep groups with average rating at
least 3.5, sort by count then average (both descending), keep 2*limit
candidate ids; then fetch the matching resource documents -- a find with an
$in filter and the optional module_id filter, which returns documents in
collection order, not in candidate order -- capped at limit. -/
def get_trending_resources (db : DB) (now : ℤ) (module_id : Option String)
    (limit : ℕ) : List ResourceDoc :=
  let groups := (trendGroups db now).filter fun g => decide ((3.5:ℚ) ≤ g.avg_rating)
  let trending_ids := ((groups.mergeSort trendLE).take (limit * 2)).map (·.resource_id)
  let fetched := db.resources.filter fun r =>
    trending_ids.contains r.id && moduleMatches module_id r
  fetched.take limit

/-- A Python dict from resource_id to rating, as the association list of its
insertions: a later pair with the same key overwrites an earlier one. -/
abbrev RatingsMap := List (String × ℚ)

/-- The key set of the dict. -/
def keysOf (m : RatingsMap) : Finset String := (m.map (·.1)).toFinset

/-- Value lookup in the dict: the value of the last insertion with the given
key (0 when absent; the service only looks up present keys). -/
def dval (m : RatingsMap) (k : String) : ℚ :=
  ((m.reverse.find? fun p => decide (p.1 = k)).map (·.2)).getD 0

open Classical in
/-- RecommendationService._cosine_similarity: cosine similarity of two
rating dicts restricted to the intersection of their key sets; 0 when fewer
than 2 keys are shared, or when either restricted vector has magnitude 0. -/
noncomputable def cosine_similarity (ratings1 ratings2 : RatingsMap) : ℝ :=
  let common := keysOf ratings1 ∩ keysOf ratings2
  if common.card < 2 then 0
  else
    let dot : ℚ := Finset.sum common fun k => dval ratings1 k * dval ratings2 k
    let mag1 : ℝ := Real.sqrt ((Finset.sum common fun k => dval ratings1 k ^ 2 : ℚ))
    let mag2 : ℝ := Real.sqrt ((Finset.sum common fun k => dval ratings2 k ^ 2 : ℚ))
    if mag1 = 0 ∨ mag2 = 0 then 0 else (dot : ℝ) / (mag1 * mag2)

/-- The rating dict built from a list of rating documents. -/
def ratingsMapOf (docs : List RatingDoc) : RatingsMap :=
  docs.map fun d => (d.resource_id, d.rating)

/-- One entry of _find_similar_users' result. -/
structure SimilarUser where
  user_id : String
  similarity : ℝ
  ratings : RatingsMap

/-- Python dict.items(): keys in first-insertion order, each with the value
of its last insertion. -/
def dictItems (m : RatingsMap) : RatingsMap :=
  (firstOccurrences [] (m.map (·.1))).map fun k => (k, dval m k)

open Classical in
/-- RecommendationService._find_similar_users: group the ratings of every
other user, keep the users whose cosine similarity with the target exceeds
0.3, sort by similarity descending, return the top 10. -/
noncomputable def find_similar_users (db : DB) (user_id : String)
    (userMap : RatingsMap) : List SimilarUser :=
  let others := db.user_ratings.filter fun d => decide (d.user_id ≠ user_id)
  let candidates : List SimilarUser :=
    (firstOccurrences [] (others.map (·.user_id))).map fun uid =>
      let om := ratingsMapOf (others.filter fun d => decide (d.user_id = uid))
      { user_id := uid, similarity := cosine_similarity userMap om, ratings := om }
  let similar := candidates.filter fun s => decide ((0.3:ℝ) < s.similarity)
  (similar.mergeSort fun a b => decide (b.similarity ≤ a.similarity)).take 10

/-- Accumulator cell of _get_collaborative_recommendations' defaultdict. -/
structure ScoreAcc where
  resource_id : String
  score : ℝ
  count : ℕ

/-- One defaultdict update: add a weighted score to the cell of a resource,
appending a fresh cell on first touch (defaultdict insertion order). -/
noncomputable def addScore (l : List ScoreAcc) (rid : String) (w : ℝ) : List ScoreAcc :=
  if (l.find? fun s => decide (s.resource_id = rid)).isSome then
    updateFirst (fun s => decide (s.resource_id = rid))
      (fun s => { s with score := s.score + w, count := s.count + 1 }) l
  else l ++ [{ resource_id := rid, score := w, count := 1 }]

/-- The resource_scores accumulation loop of
_get_collaborative_recommendations: over the similar users in order, over
each user's rating dict in iteration order, accumulate similarity-weighted
scores of the resources the target user has not rated and the neighbour
rated at least 4. -/
noncomputable def collabScores (similar : List SimilarUser) (rated : List String) :
    List ScoreAcc :=
  similar.foldl (fun acc su =>
    (dictItems su.ratings).foldl (fun acc2 p =>
      if p.1 ∉ rated ∧ 4 ≤ p.2 then addScore acc2 p.1 ((p.2 : ℝ) * su.similarity) else acc2)
      acc) []

/-- One recommendation entry as assembled by the service (presentation
fields elided). A trending entry carries no recommendation_score key and the
final sort reads it back as 0, modelled as score 0. -/
structure RecEntry where
  id : String
  average_rating : ℚ
  rating_count : ℕ
  recommendation_score : ℝ
  recommendation_type : String

/-- RecommendationService._get_collaborative_recommendations: resolve each
accumulated resource id (skipping unknown ids and, when a module filter is
given, resources of other modules) to an entry scored by the mean
similarity-weighted rating of its contributing neighbours. -/
noncomputable def get_collaborative_recommendations (db : DB)
    (similar : List SimilarUser) (rated : List String)
    (module_id : Option String) : List RecEntry :=
  (collabScores similar rated).filterMap fun c =>
    match db.resources.find? fun r => decide (r.id = c.resource_id) with
    | none => none
    | some r =>
      if moduleMatches module_id r then
        some { id := r.id, average_rating := r.average_rating,
               rating_count := r.rating_count,
               recommendation_score := if 0 < c.count then c.score / c.count else 0,
               recommendation_type := "collaborative" }
      else none

/-- RecommendationService._get_content_based_recommendations: up to 10
resources of the module not yet rated by the user, by average rating
descending, each scored at 0.8 of its average rating. -/
noncomputable def get_content_based_recommendations (db : DB) (module_id : String)
    (rated : List String) : List RecEntry :=
  let found := db.resources.filter fun r =>
    decide (r.module_id = some module_id) && decide (r.id ∉ rated)
  ((found.mergeSort fun a b => decide (b.average_rating ≤ a.average_rating)).take 10).map
    fun r =>
      { id := r.id, average_rating := r.average_rating, rating_count := r.rating_count,
        recommendation_score := (r.average_rating : ℝ) * 0.8,
        recommendation_type := "content" }

/-- The deduplication loop of get_recommendations_for_user: keep the first
entry for each resource id, tracking the ids already seen. -/
def dedupById : List RecEntry → List String → List RecEntry
  | [], _ => []
  | r :: rest, seen =>
    if r.id ∈ seen then dedupById rest seen else r :: dedupById rest (r.id :: seen)

/-- The resource ids a user has already rated. -/
def ratedIds (db : DB) (user_id : String) : List String :=
  (get_user_ratings db user_id).map (·.resource_id)

open Classical in
/-- RecommendationService.get_recommendations_for_user: hybrid of the
collaborative signal (only with at least 3 own ratings), the content-based
signal (only when a module filter is given) and the trending signal (limit
5, excluding already-rated resources), concatenated in that order,
deduplicated by id keeping the first occurrence, sorted by recommendation
score descending (Python's stable sort), capped at limit. -/
noncomputable def get_recommendations_for_user (db : DB) (now : ℤ) (user_id : String)
    (module_id : Option String) (limit : ℕ) : List RecEntry :=
  let user_ratings := get_user_ratings db user_id
  let rated := ratedIds db user_id
  let cf : List RecEntry :=
    if 3 ≤ user_ratings.length then
      get_collaborative_recommendations db
        (find_similar_users db user_id (ratingsMapOf user_ratings)) rated module_id
    else []
  let content : List RecEntry :=
    match module_id with
    | some m => get_content_based_recommendations db m rated
    | none => []
  let trendingEntries : List RecEntry :=
    (get_trending_resources db now module_id 5).filterMap fun r =>
      if r.id ∉ rated then
        some { id := r.id, average_rating := r.average_rating,
               rating_count := r.rating_count,
               recommendation_score := 0, recommendation_type := "trending" }
      else none
  let unique := dedupById (cf ++ content ++ trendingEntries) []
  (unique.mergeSort fun a b =>
    decide (b.recommendation_score ≤ a.recommendation_score)).take limit

/-- A module as sent to the study-decision scorer. The optional examDate ISO
string is modelled by its parse outcome: none when the field is absent or
empty (both falsy in Python), some none when a nonempty string is present
that datetime.fromisoformat rejects, and some (some t) when it parses to
the timestamp t in integer seconds. -/
structure ModuleInput where
  id : String
  name : String
  difficulty : ℤ
  examDate : Option (Option ℤ)
  progress : Option ℤ
  deriving DecidableEq

/-- StudyDecisionRequest: the context of one study-decision call. -/
structure StudyDecisionRequest where
  mood : String
  energyLevel : ℤ
  timeAvailable : ℤ
  modules : List ModuleInput
  deriving DecidableEq

/-- The recommendedModule payload of a StudyDecisionResponse. -/
structure RecommendedModule where
  id : String
  name : String
  reason : String
  deriving DecidableEq

/-- StudyDecisionResponse as returned by get_recommendation. -/
structure StudyDecisionResponse where
  recommendedModule : RecommendedModule
  recommendedActivity : String
  suggestedDuration : ℤ
  explanation : String
  confidence : ℚ
  deriving DecidableEq

/-- Python (exam_date - now).days: floor division of the difference in
seconds by 86400 (timedelta.days floors toward minus infinity). -/
def daysUntil (now t : ℤ) : ℤ := (t - now).fdiv 86400

/-- The mood multiplier table, defaulting to 1.0 for unknown moods. -/
def moodMultiplier (mood : String) : ℚ :=
  if mood = "low" then 0.7 else if mood = "medium" then 1.0
  else if mood = "high" then 1.3 else 1.0

/-- The exam-proximity branch of _calculate_module_score: a bonus of
100 / (1 + days/7) when a parseable exam date lies more than zero whole days
ahead; absent dates and parse failures contribute nothing (the try/except
around fromisoformat swallows the error). -/
def examProximityBonus (now : ℤ) (examDate : Option (Option ℤ)) : ℚ :=
  match examDate with
  | some (some t) =>
    if 0 < daysUntil now t then 100 / (1 + (daysUntil now t : ℚ) / 7) else 0
  | _ => 0

/-- StudyDecisionService._calculate_module_score. -/
def calculate_module_score (now : ℤ) (request : StudyDecisionRequest)
    (m : ModuleInput) : ℚ :=
  let difficulty_weight : ℚ :=
    if 7 ≤ request.energyLevel then 1.5 else if request.energyLevel ≤ 4 then 0.5 else 1.0
  let base := (m.difficulty : ℚ) * difficulty_weight * 10
  let withExam := base + examProximityBonus now m.examDate
  let withProgress := withExam +
    (match m.progress with
     | some p => (100 - (p : ℚ)) * 0.5
     | none => 0)
  withProgress * moodMultiplier request.mood * ((request.energyLevel : ℚ) / 10)

/-- StudyDecisionService._determine_activity (first matching rule wins; the
mood argument is unused in the source as well). -/
def determine_activity (mood : String) (energy_level time_available : ℤ) : String :=
  if energy_level ≤ 4 ∨ time_available ≤ 30 then "flashcards"
  else if 7 ≤ energy_level ∧ 90 ≤ time_available then "practice"
  else if 60 ≤ time_available then "revise"
  else "summary"

/-- Python int() on a rational: truncation toward zero. -/
def qtrunc (q : ℚ) : ℤ := q.num.tdiv q.den

/-- StudyDecisionService._calculate_duration. -/
def calculate_duration (time_available energy_level : ℤ) (activity : String) : ℤ :=
  let base_duration := min time_available 120
  let adjusted :=
    if energy_level ≤ 4 then qtrunc ((base_duration : ℚ) * 0.7)
    else if 8 ≤ energy_level then qtrunc ((base_duration : ℚ) * 1.1)
    else base_duration
  let mult : ℚ :=
    if activity = "flashcards" then 0.8 else if activity = "summary" then 0.9
    else if activity = "revise" then 1.0 else if activity = "practice" then 1.1 else 1.0
  let duration := qtrunc ((adjusted : ℚ) * mult)
  max 15 (duration.fdiv 5 * 5)

/-- StudyDecisionService._get_reason (the request argument is unused in the
source as well). -/
def get_reason (now : ℤ) (m : ModuleInput) (request : StudyDecisionRequest) : String :=
  let examReasons : List String :=
    match m.examDate with
    | some (some t) =>
      let days := daysUntil now t
      if 0 < days ∧ days ≤ 14 then ["Exam in " ++ toString days ++ " days"] else []
    | _ => []
  let progressReasons : List String :=
    match m.progress with
    | some p => if p < 50 then ["Low progress"] else []
    | none => []
  let difficultyReasons : List String :=
    if 7 ≤ m.difficulty then ["High difficulty"] else []
  let reasons := examReasons ++ progressReasons ++ difficultyReasons
  String.intercalate "; " (if reasons = [] then ["Good time to review"] else reasons)

/-- StudyDecisionService._calculate_confidence, applied to the already
sorted score list. -/
def calculate_confidence (module_scores : List (ModuleInput × ℚ)) : ℚ :=
  if module_scores.length < 2 then 0.8
  else
    match module_scores with
    | top :: second :: _ =>
      if top.2 = 0 then 0.5
      else min 0.95 (0.6 + (top.2 - second.2) / top.2 * 0.35)
    | _ => 0.8

/-- StudyDecisionService.get_recommendation: score every module, sort the
scores descending (Python's stable sort), pick the top module -- an
IndexError, modelled as none, when the module list is empty -- then choose
activity, duration, reason and confidence. The natural-language explanation
is delegated to the external LLM collaborator llm, applied to the data the
source interpolates into its prompt. -/
def get_recommendation (llm : String → String → ℤ → StudyDecisionRequest → ℚ → String)
    (now : ℤ) (request : StudyDecisionRequest) : Option StudyDecisionResponse :=
  let module_scores := request.modules.map fun m => (m, calculate_module_score now request m)
  let sorted := module_scores.mergeSort fun a b => decide (b.2 ≤ a.2)
  match sorted with
  | [] => none
  | top :: _ =>
    let recommended_module := top.1
    let recommended_activity :=
      determine_activity request.mood request.energyLevel request.timeAvailable
    let suggested_duration :=
      calculate_duration request.timeAvailable request.energyLevel recommended_activity
    let explanation :=
      llm recommended_module.name recommended_activity suggested_duration request top.2
    some { recommendedModule :=
             { id := recommended_module.id, name := recommended_module.name,
               reason := get_reason now recommended_module request },
           recommendedActivity := recommended_activity,
           suggestedDuration := suggested_duration,
           explanation := explanation,
           confidence := calculate_confidence sorted }

/-- The store after one user rates the same resource twice in succession. -/
def rateTwice (db : DB) (t1 t2 : ℤ) (u res : String) (v1 v2 : ℚ)
    (mid1 mid2 : Option String) : DB :=
  (rate_resource (rate_resource db t1 u res v1 mid1).2 t2 u res v2 mid2).2

/-! Concrete inputs used by the closed-form checks below. -/

/-- Example resource document with no ratings yet. -/
def exRes1 : ResourceDoc :=
  { id := "R", module_id := none, average_rating := 0, rating_count := 0 }

/-- Example store: one resource, no ratings. -/
def exDb1 : DB := { user_ratings := [], resources := [exRes1] }

/-- exDb1 after user u1 rates R with 1. -/
def exDb1a : DB := (rate_resource exDb1 0 "u1" "R" 1 none).2

/-- exDb1a after user u2 rates R with 1. -/
def exDb1b : DB := (rate_resource exDb1a 0 "u2" "R" 1 none).2

/-- exDb1b after user u3 rates R with 2. -/
def exDb1c : DB := (rate_resource exDb1b 0 "u3" "R" 2 none).2

/-- A stub for the external LLM collaborator. -/
def llm0 : String → String → ℤ → StudyDecisionRequest → ℚ → String := fun _ _ _ _ _ => ""

/-- Example module whose examDate string is present but not parseable. -/
def exMod10 : ModuleInput :=
  { id := "m1", name := "Math", difficulty := 5, examDate := some none, progress := none }

/-- Example request carrying exMod10. -/
def exReq10 : StudyDecisionRequest :=
  { mood := "medium", energyLevel := 5, timeAvailable := 60, modules := [exMod10] }

/-- Example module whose exam lies one hour in the future. -/
def exMod4 : ModuleInput :=
  { id := "m2", name := "Phys", difficulty := 5, examDate := some (some 3600), progress := none }

/-- Example request carrying exMod4. -/
def exReq4 : StudyDecisionRequest :=
  { mood := "medium", energyLevel := 5, timeAvailable := 60, modules := [exMod4] }

/-- Example module whose exam lies exactly one day in the future. -/
def exMod4w : ModuleInput :=
  { id := "m3", name := "Chem", difficulty := 5, examDate := some (some 86400), progress := none }

/-- Example request carrying exMod4w. -/
def exReq4w : StudyDecisionRequest :=
  { mood := "medium", energyLevel := 5, timeAvailable := 60, modules := [exMod4w] }

/-- Example request with an empty module list. -/
def exReq9 : StudyDecisionRequest :=
  { mood := "medium", energyLevel := 5, timeAvailable := 60, modules := [] }

/-- Example resource A: one recent rating of 4. -/
def exResA : ResourceDoc :=
  { id := "A", module_id := none, average_rating := 4, rating_count := 1 }

/-- Example resource B: two recent ratings of 5. -/
def exResB : ResourceDoc :=
  { id := "B", module_id := none, average_rating := 5, rating_count := 2 }

/-- Example store for the trending check: A precedes B in the resources
collection while B has the higher recent rating count. -/
def exDb5 : DB :=
  { user_ratings := [
      { user_id := "u1", resource_id := "A", module_id := none, rating := 4,
        updated_at := 100 },
      { user_id := "u2", resource_id := "B", module_id := none, rating := 5,
        updated_at := 100 },
      { user_id := "u3", resource_id := "B", module_id := none, rating := 5,
        updated_at := 100 }],
    resources := [exResA, exResB] }

/-- Example rating map covering two resources, used in concrete checks. -/
def exMapA : RatingsMap := [("x", 3), ("y", 4)]

/-- The trending recommendation entry for resource B. -/
def exRecB : RecEntry :=
  { id := "B", average_rating := 5, rating_count := 2,
    recommendation_score := 0, recommendation_type := "trending" }

/-! Helper lemmas. -/

/-- A key of a rating dict is realised by one of its pairs. -/
lemma dval_mem_of_key (m : RatingsMap) (k : String) (hk : k ∈ keysOf m) :
    ∃ p ∈ m, p.1 = k ∧ dval m k = p.2 := by
  unfold keysOf at hk
  rw [List.mem_toFinset, List.mem_map] at hk
  obtain ⟨p, hp, hpk⟩ := hk
  have hsome : (m.reverse.find? fun q => decide (q.1 = k)).isSome := by
    rw [List.find?_isSome]
    exact ⟨p, List.mem_reverse.mpr hp, by simp [hpk]⟩
  obtain ⟨q, hq⟩ := Option.isSome_iff_exists.mp hsome
  have hqk : q.1 = k := by simpa using List.find?_some hq
  have hqm : q ∈ m := List.mem_reverse.mp (List.mem_of_find?_eq_some hq)
  refine ⟨q, hqm, hqk, ?_⟩
  simp [dval, hq]

/-- get_recommendation fails exactly on an empty module list. -/
lemma get_recommendation_eq_none_iff
    (llm : String → String → ℤ → StudyDecisionRequest → ℚ → String)
    (now : ℤ) (request : StudyDecisionRequest) :
    get_recommendation llm now request = none ↔ request.modules = [] := by
  unfold get_recommendation
  cases h : (request.modules.map fun m => (m, calculate_module_score now request m)).mergeSort
      (fun a b => decide (b.2 ≤ a.2)) with
  | nil =>
    have hlen := congrArg List.length h
    rw [List.length_mergeSort, List.length_map] at hlen
    simp only [h, List.length_nil] at hlen ⊢
    simpa using List.length_eq_zero.mp hlen
  | cons top rest =>
    have hlen := congrArg List.length h
    rw [List.length_mergeSort, List.length_map] at hlen
    simp only [h, List.length_cons] at hlen ⊢
    constructor
    · intro hcontr; exact absurd hcontr (by simp)
    · intro hm
      rw [hm] at hlen
      simp at hlen

/-- update_resource_average never touches the ratings collection. -/
lemma update_resource_average_user_ratings (db : DB) (res : String) :
    (update_resource_average db res).user_ratings = db.user_ratings := by
  unfold update_resource_average
  by_cases h : valuesFor db.user_ratings res = [] <;> simp [h]

/-- find? after updateFirst, when the update preserves the predicate. -/
lemma find?_updateFirst {α : Type} (p : α → Bool) (f : α → α)
    (hf : ∀ x, p x = true → p (f x) = true) :
    ∀ l : List α, (updateFirst p f l).find? p = (l.find? p).map f := by
  intro l
  induction l with
  | nil => rfl
  | cons x xs ih =>
    by_cases hx : p x = true
    · rw [updateFirst, if_pos hx, List.find?_cons_of_pos _ (hf x hx),
        List.find?_cons_of_pos _ hx]
      rfl
    · rw [updateFirst, if_neg hx, List.find?_cons_of_neg _ hx, List.find?_cons_of_neg _ hx, ih]

/-- The constant replacement is a member of updateFirst whenever some
document matches. -/
lemma mem_updateFirst_of_find? {α : Type} (p : α → Bool) (d : α) :
    ∀ l : List α, (l.find? p).isSome = true → d ∈ updateFirst p (fun _ => d) l := by
  intro l
  induction l with
  | nil => intro h; simp [List.find?] at h
  | cons x xs ih =>
    intro h
    by_cases hx : p x = true
    · simp [updateFirst, hx]
    · rw [List.find?_cons_of_neg _ hx] at h
      simp only [updateFirst, if_neg hx, List.mem_cons]
      exact Or.inr (ih h)

/-- Any member of updateFirst with a constant replacement was a member
before, or is the replacement. -/
lemma mem_updateFirst_const {α : Type} (p : α → Bool) (d : α) :
    ∀ l : List α, ∀ y ∈ updateFirst p (fun _ => d) l, y ∈ l ∨ y = d := by
  intro l
  induction l with
  | nil => intro y hy; simp [updateFirst] at hy
  | cons x xs ih =>
    intro y hy
    by_cases hx : p x = true
    · rw [updateFirst, if_pos hx] at hy
      rcases List.mem_cons.mp hy with h | h
      · exact Or.inr h
      · exact Or.inl (List.mem_cons.mpr (Or.inr h))
    · rw [updateFirst, if_neg hx] at hy
      rcases List.mem_cons.mp hy with h | h
      · exact Or.inl (List.mem_cons.mpr (Or.inl h))
      · rcases ih y h with h2 | h2
        · exact Or.inl (List.mem_cons.mpr (Or.inr h2))
        · exact Or.inr h2

/-- The upserted document is a member of its own upsert. -/
lemma mem_upsertRating (l : List RatingDoc) (u res : String) (d : RatingDoc) :
    d ∈ upsertRating l u res d := by
  unfold upsertRating
  split
  · exact mem_updateFirst_of_find? _ _ l (by assumption)
  · simp

/-- Filtering with a predicate disjoint from the update predicate and false
on the replacement commutes with updateFirst. -/
lemma filter_updateFirst_of_disjoint {α : Type} (p q : α → Bool) (f : α → α)
    (hq : ∀ x, p x = true → (q x = false ∧ q (f x) = false)) :
    ∀ l : List α, (updateFirst p f l).filter q = l.filter q := by
  intro l
  induction l with
  | nil => rfl
  | cons x xs ih =>
    by_cases hx : p x = true
    · obtain ⟨h1, h2⟩ := hq x hx
      rw [updateFirst, if_pos hx, List.filter_cons, List.filter_cons, h1, h2]
      simp
    · rw [updateFirst, if_neg hx, List.filter_cons, List.filter_cons, ih]

/-- Filtering with a predicate disjoint from the upsert key and false on
the new document is unchanged by the upsert. -/
lemma filter_upsertRating_of_disjoint (l : List RatingDoc) (u res : String)
    (d : RatingDoc) (q : RatingDoc → Bool)
    (hkey : ∀ x, ratingKey u res x = true → q x = false) (hd : q d = false) :
    (upsertRating l u res d).filter q = l.filter q := by
  unfold upsertRating
  split
  · exact filter_updateFirst_of_disjoint _ _ _ (fun x hx => ⟨hkey x hx, hd⟩) l
  · rw [List.filter_append, List.filter_cons, hd]
    simp

/-- With unique keys and a matching replacement, updateFirst leaves exactly
the replacement under the key filter. -/
lemma filter_key_updateFirst (u res : String) (d : RatingDoc)
    (hd : ratingKey u res d = true) :
    ∀ l : List RatingDoc, KeysUnique l → (l.find? (ratingKey u res)).isSome = true →
      (updateFirst (ratingKey u res) (fun _ => d) l).filter (ratingKey u res) = [d] := by
  intro l
  induction l with
  | nil => intro _ h; simp [List.find?] at h
  | cons x xs ih =>
    intro hw hfind
    have hw' := List.pairwise_cons.mp hw
    by_cases hx : ratingKey u res x = true
    · have hxk : x.user_id = u ∧ x.resource_id = res := by
        simpa [ratingKey] using hx
      have hxs : xs.filter (ratingKey u res) = [] := by
        rw [List.filter_eq_nil_iff]
        intro y hy hyk
        have hyk2 : y.user_id = u ∧ y.resource_id = res := by
          simpa [ratingKey] using hyk
        exact hw'.1 y hy ⟨hxk.1.trans hyk2.1.symm, hxk.2.trans hyk2.2.symm⟩
      rw [updateFirst, if_pos hx, List.filter_cons, hd, hxs]
      simp
    · have hfind' : (xs.find? (ratingKey u res)).isSome = true := by
        rwa [List.find?_cons_of_neg _ hx] at hfind
      rw [updateFirst, if_neg hx, List.filter_cons, if_neg hx]
      exact ih hw'.2 hfind'

/-- With unique keys, an upsert whose document matches the key leaves
exactly that document under the key filter. -/
lemma filter_key_upsertRating (l : List RatingDoc) (u res : String) (d : RatingDoc)
    (hw : KeysUnique l) (hd : ratingKey u res d = true) :
    (upsertRating l u res d).filter (ratingKey u res) = [d] := by
  unfold upsertRating
  split
  · exact filter_key_updateFirst u res d hd l hw (by assumption)
  · rename_i hfind
    rw [List.filter_append]
    have hnil : l.filter (ratingKey u res) = [] := by
      rw [List.filter_eq_nil_iff]
      intro x hx
      have := List.find?_eq_none.mp (Option.not_isSome_iff_eq_none.mp hfind) x hx
      simpa using this
    rw [hnil, List.filter_cons, hd]
    simp

/-- Upserting a document that matches the key preserves key uniqueness. -/
lemma keysUnique_upsertRating (l : List RatingDoc) (u res : String) (d : RatingDoc)
    (hd : d.user_id = u ∧ d.resource_id = res) (hw : KeysUnique l) :
    KeysUnique (upsertRating l u res d) := by
  unfold upsertRating
  split
  · -- replacement case: keys are unchanged
    clear * - hd hw
    induction l with
    | nil => exact hw
    | cons x xs ih =>
      have hw' := List.pairwise_cons.mp hw
      by_cases hx : ratingKey u res x = true
      · have hxk : x.user_id = u ∧ x.resource_id = res := by
          simpa [ratingKey] using hx
        rw [updateFirst, if_pos hx]
        refine List.pairwise_cons.mpr ⟨?_, hw'.2⟩
        intro y hy hcontr
        exact hw'.1 y hy ⟨hxk.1.trans (hd.1.symm.trans hcontr.1), hxk.2.trans (hd.2.symm.trans hcontr.2)⟩
      · rw [updateFirst, if_neg hx]
        refine List.pairwise_cons.mpr ⟨?_, ih hw'.2⟩
        intro y hy
        rcases mem_updateFirst_const (ratingKey u res) d xs y hy with h | h
        · exact hw'.1 y h
        · intro hcontr
          apply hx
          rw [h] at hcontr
          simp [ratingKey, hcontr.1.trans hd.1, hcontr.2.trans hd.2]
  · rename_i hfind
    refine List.pairwise_append.mpr ⟨hw, List.pairwise_singleton _ _, ?_⟩
    intro y hy z hz hcontr
    have hz' : z = d := List.mem_singleton.mp hz
    have := List.find?_eq_none.mp (Option.not_isSome_iff_eq_none.mp hfind) y hy
    apply this
    rw [hz'] at hcontr
    simp [ratingKey, hcontr.1.trans hd.1, hcontr.2.trans hd.2]

/-- Core facts about one successful rate_resource call on an existing
resource: the stored average is the rounded mean and the stored count the
count of the post-write ratings, the resource document survives, and the
ratings collection is exactly the upsert of the old one. -/
lemma rate_resource_stored_average (db : DB) (now : ℤ) (u res : String)
    (rating : ℚ) (mid : Option String)
    (hvalid : ¬(rating < 1 ∨ rating > 5))
    (hex : (storedResource db res).isSome = true) :
    (storedResource (rate_resource db now u res rating mid).2 res).map (·.average_rating) =
      some (round1 ((valuesFor (rate_resource db now u res rating mid).2.user_ratings res).sum /
        (valuesFor (rate_resource db now u res rating mid).2.user_ratings res).length)) ∧
    (storedResource (rate_resource db now u res rating mid).2 res).map (·.rating_count) =
      some (valuesFor (rate_resource db now u res rating mid).2.user_ratings res).length ∧
    (storedResource (rate_resource db now u res rating mid).2 res).isSome = true ∧
    (rate_resource db now u res rating mid).2.user_ratings =
      upsertRating db.user_ratings u res
        { user_id := u, resource_id := res, module_id := mid,
          rating := rating, updated_at := now } := by
  simp only [rate_resource, if_neg hvalid]
  set doc : RatingDoc := ({ user_id := u, resource_id := res, module_id := mid, rating := rating, updated_at := now } : RatingDoc) with hdocdef
  have hmem : doc ∈ upsertRating db.user_ratings u res doc := mem_upsertRating _ _ _ _
  have hvs : ¬ (valuesFor (upsertRating db.user_ratings u res doc) res = []) := by
    intro hnil
    have hmm : doc.rating ∈ valuesFor (upsertRating db.user_ratings u res doc) res := by
      unfold valuesFor
      exact List.mem_map_of_mem _ (List.mem_filter.mpr ⟨hmem, by simp [hdocdef]⟩)
    rw [hnil] at hmm
    exact absurd hmm (List.not_mem_nil _)
  simp only [update_resource_average, if_neg hvs]
  simp only [storedResource]
  set vs : List ℚ := valuesFor (upsertRating db.user_ratings u res doc) res with hvsdef
  rw [find?_updateFirst (fun r => decide (r.id = res))
    (fun r => { r with average_rating := round1 (vs.sum / vs.length),
                       rating_count := vs.length })
    (fun x hx => by simpa using hx) db.resources]
  unfold storedResource at hex
  obtain ⟨r0, hr0⟩ := Option.isSome_iff_exists.mp hex
  rw [hr0]
  simp

/-- Concrete evaluation of the three-rating example store. -/
lemma exDb1c_eval : exDb1c =
    { user_ratings := [
        { user_id := "u1", resource_id := "R", module_id := none, rating := 1, updated_at := 0 },
        { user_id := "u2", resource_id := "R", module_id := none, rating := 1, updated_at := 0 },
        { user_id := "u3", resource_id := "R", module_id := none, rating := 2, updated_at := 0 }],
      resources :=
        [{ id := "R", module_id := none, average_rating := 13/10, rating_count := 3 }] } := by
  have hr : round1 (1 : ℚ) = 1 := by norm_num [round1, roundHalfEven, Int.fdiv]
  have ha : exDb1a =
      { user_ratings :=
          [{ user_id := "u1", resource_id := "R", module_id := none, rating := 1,
             updated_at := 0 }],
        resources := [{ id := "R", module_id := none, average_rating := 1,
                        rating_count := 1 }] } := by
    simp [exDb1a, exDb1, exRes1, rate_resource, upsertRating, updateFirst,
      update_resource_average, valuesFor, ratingKey, hr]
  have h2c : ((2:ℕ):ℚ) = 2 := by norm_num
  have h2 : (1 + 1 : ℚ) / (2:ℚ) = 1 := by norm_num
  have hb : exDb1b =
      { user_ratings := [
          { user_id := "u1", resource_id := "R", module_id := none, rating := 1,
            updated_at := 0 },
          { user_id := "u2", resource_id := "R", module_id := none, rating := 1,
            updated_at := 0 }],
        resources := [{ id := "R", module_id := none, average_rating := 1,
                        rating_count := 2 }] } := by
    unfold exDb1b
    rw [ha]
    simp [rate_resource, upsertRating, updateFirst,
      update_resource_average, valuesFor, ratingKey, h2c, h2, hr]
  have h3c : ((3:ℕ):ℚ) = 3 := by norm_num
  have h43 : (1 + (1 + 2) : ℚ) / (3:ℚ) = 4/3 := by norm_num
  have hr43 : round1 ((4:ℚ)/3) = 13/10 := by norm_num [round1, roundHalfEven, Int.fdiv]
  unfold exDb1c
  rw [hb]
  simp [rate_resource, upsertRating, updateFirst,
    update_resource_average, valuesFor, ratingKey, h3c, h43, hr43,
    (by norm_num : ¬((5:ℚ) < 2))]

/-- Elements emitted by firstOccurrences come from the input list. -/
lemma mem_firstOccurrences (x : String) :
    ∀ (l seen : List String), x ∈ firstOccurrences seen l → x ∈ l := by
  intro l
  induction l with
  | nil => intro seen h; simpa [firstOccurrences] using h
  | cons y ys ih =>
    intro seen h
    by_cases hy : y ∈ seen
    · rw [firstOccurrences, if_pos hy] at h
      exact List.mem_cons.mpr (Or.inr (ih seen h))
    · rw [firstOccurrences, if_neg hy] at h
      rcases List.mem_cons.mp h with h2 | h2
      · exact List.mem_cons.mpr (Or.inl h2)
      · exact List.mem_cons.mpr (Or.inr (ih (y :: seen) h2))

/-- mergeSort on a two-element list. -/
lemma mergeSort_pair {α : Type} (le : α → α → Bool) (a b : α) :
    [a, b].mergeSort le = if le a b then [a, b] else [b, a] := by
  rw [List.mergeSort]
  simp [List.merge]

/-- Concrete evaluation of trending on the example store. -/
lemma exDb5_trending_eval : get_trending_resources exDb5 0 none 10 = [exResA, exResB] := by
  have h35a : ((3.5:ℚ) ≤ 4) := by norm_num
  have h35b : ((3.5:ℚ) ≤ 5) := by norm_num
  have h55 : (5 + 5 : ℚ) = 10 := by norm_num
  have h102 : (10 : ℚ) / 2 = 5 := by norm_num
  simp [get_trending_resources, trendGroups, recentValues, recentRatings,
    firstOccurrences, exDb5, exResA, exResB, trendLE, mergeSort_pair,
    moduleMatches, h35a, h35b, h55, h102, List.contains]

/-- Members of dedupById come from the input list. -/
lemma mem_dedupById : ∀ (l : List RecEntry) (seen : List String),
    ∀ r ∈ dedupById l seen, r ∈ l := by
  intro l
  induction l with
  | nil =>
    intro seen r hr
    simpa [dedupById] using hr
  | cons x xs ih =>
    intro seen r hr
    by_cases hx : x.id ∈ seen
    · rw [dedupById, if_pos hx] at hr
      exact List.mem_cons.mpr (Or.inr (ih seen r hr))
    · rw [dedupById, if_neg hx] at hr
      rcases List.mem_cons.mp hr with h | h
      · exact List.mem_cons.mpr (Or.inl h)
      · exact List.mem_cons.mpr (Or.inr (ih _ r h))

/-- dedupById produces entries with pairwise distinct ids, none of them
among the ids already seen. -/
lemma nodup_dedupById : ∀ (l : List RecEntry) (seen : List String),
    ((dedupById l seen).map (·.id)).Nodup ∧ ∀ r ∈ dedupById l seen, r.id ∉ seen := by
  intro l
  induction l with
  | nil =>
    intro seen
    constructor
    · simp [dedupById]
    · intro r hr
      simp [dedupById] at hr
  | cons x xs ih =>
    intro seen
    by_cases hx : x.id ∈ seen
    · rw [dedupById, if_pos hx]
      exact ih seen
    · rw [dedupById, if_neg hx]
      have ihs := ih (x.id :: seen)
      constructor
      · rw [List.map_cons, List.nodup_cons]
        constructor
        · intro hmm
          rw [List.mem_map] at hmm
          obtain ⟨y, hy, hyid⟩ := hmm
          exact ihs.2 y hy (by rw [hyid]; exact List.mem_cons_self _ _)
        · exact ihs.1
      · intro r hr
        rcases List.mem_cons.mp hr with h | h
        · rw [h]
          exact hx
        · intro hcontr
          exact ihs.2 r h (List.mem_cons.mpr (Or.inr hcontr))

/-- Members of updateFirst: unchanged members, or the image of a member. -/
lemma mem_updateFirst {α : Type} (p : α → Bool) (f : α → α) :
    ∀ l : List α, ∀ y ∈ updateFirst p f l, y ∈ l ∨ ∃ x ∈ l, y = f x := by
  intro l
  induction l with
  | nil =>
    intro y hy
    simp [updateFirst] at hy
  | cons a as ih =>
    intro y hy
    by_cases ha : p a = true
    · rw [updateFirst, if_pos ha] at hy
      rcases List.mem_cons.mp hy with h | h
      · exact Or.inr ⟨a, List.mem_cons_self _ _, h⟩
      · exact Or.inl (List.mem_cons.mpr (Or.inr h))
    · rw [updateFirst, if_neg ha] at hy
      rcases List.mem_cons.mp hy with h | h
      · exact Or.inl (List.mem_cons.mpr (Or.inl h))
      · rcases ih y h with h2 | ⟨x, hx, he⟩
        · exact Or.inl (List.mem_cons.mpr (Or.inr h2))
        · exact Or.inr ⟨x, List.mem_cons.mpr (Or.inr hx), he⟩

/-- addScore preserves a property of the accumulated resource ids. -/
lemma addScore_ids (P : String → Prop) (l : List ScoreAcc) (rid : String) (w : ℝ)
    (hl : ∀ s ∈ l, P s.resource_id) (hr : P rid) :
    ∀ s ∈ addScore l rid w, P s.resource_id := by
  unfold addScore
  split
  · intro s hs
    rcases mem_updateFirst _ _ l s hs with h | ⟨x, hx, rfl⟩
    · exact hl s h
    · simpa using hl x hx
  · intro s hs
    rcases List.mem_append.mp hs with h | h
    · exact hl s h
    · rw [List.mem_singleton.mp h]
      exact hr

/-- The inner accumulation loop of collabScores only ever carries ids
outside the rated set. -/
lemma collab_inner_ids (rated : List String) (su : SimilarUser) :
    ∀ (pairs : List (String × ℚ)) (acc : List ScoreAcc),
      (∀ s ∈ acc, s.resource_id ∉ rated) →
      ∀ s ∈ pairs.foldl (fun acc2 p =>
          if p.1 ∉ rated ∧ 4 ≤ p.2 then addScore acc2 p.1 ((p.2 : ℝ) * su.similarity)
          else acc2) acc,
        s.resource_id ∉ rated := by
  intro pairs
  induction pairs with
  | nil =>
    intro acc hacc
    simpa using hacc
  | cons p ps ih =>
    intro acc hacc
    rw [List.foldl_cons]
    apply ih
    by_cases hc : p.1 ∉ rated ∧ 4 ≤ p.2
    · rw [if_pos hc]
      exact addScore_ids (fun i => i ∉ rated) acc p.1 _ hacc hc.1
    · rw [if_neg hc]
      exact hacc

/-- Every accumulated collaborative score belongs to an unrated resource. -/
lemma collabScores_ids (similar : List SimilarUser) (rated : List String) :
    ∀ s ∈ collabScores similar rated, s.resource_id ∉ rated := by
  unfold collabScores
  suffices h : ∀ (sims : List SimilarUser) (acc : List ScoreAcc),
      (∀ s ∈ acc, s.resource_id ∉ rated) →
      ∀ s ∈ sims.foldl (fun acc su =>
          (dictItems su.ratings).foldl (fun acc2 p =>
            if p.1 ∉ rated ∧ 4 ≤ p.2 then addScore acc2 p.1 ((p.2 : ℝ) * su.similarity)
            else acc2) acc) acc,
        s.resource_id ∉ rated by
    intro s hs
    exact h similar [] (by simp) s hs
  intro sims
  induction sims with
  | nil =>
    intro acc hacc
    simpa using hacc
  | cons su sus ih =>
    intro acc hacc
    rw [List.foldl_cons]
    exact ih _ (collab_inner_ids rated su _ acc hacc)

/-- Collaborative recommendation entries are unrated resources. -/
lemma collab_entries_ids (db : DB) (similar : List SimilarUser) (rated : List String)
    (module_id : Option String) :
    ∀ e ∈ get_collaborative_recommendations db similar rated module_id,
      e.id ∉ rated := by
  unfold get_collaborative_recommendations
  intro e he
  rw [List.mem_filterMap] at he
  obtain ⟨c, hc, hce⟩ := he
  cases hfind : db.resources.find? fun r => decide (r.id = c.resource_id) with
  | none =>
    rw [hfind] at hce
    simp at hce
  | some r =>
    rw [hfind] at hce
    by_cases hm : moduleMatches module_id r = true
    · simp only [hm, if_true] at hce
      have hrid : r.id = c.resource_id := by
        simpa using List.find?_some hfind
      have heid : e.id = r.id := by
        have := Option.some.inj hce
        rw [← this]
      rw [heid, hrid]
      exact collabScores_ids similar rated c hc
    · rw [Bool.not_eq_true] at hm
      simp only [hm] at hce
      simp at hce

/-- Content-based recommendation entries are unrated resources. -/
lemma content_entries_ids (db : DB) (module_id : String) (rated : List String) :
    ∀ e ∈ get_content_based_recommendations db module_id rated, e.id ∉ rated := by
  unfold get_content_based_recommendations
  intro e he
  rw [List.mem_map] at he
  obtain ⟨r, hr, hre⟩ := he
  have hr2 : r ∈ db.resources.filter fun r =>
      decide (r.module_id = some module_id) && decide (r.id ∉ rated) :=
    (List.mergeSort_perm _ _).mem_iff.mp (List.mem_of_mem_take hr)
  have hcond := (List.mem_filter.mp hr2).2
  rw [Bool.and_eq_true] at hcond
  have hid : r.id ∉ rated := of_decide_eq_true hcond.2
  have heid : e.id = r.id := by
    rw [← hre]
  rw [heid]
  exact hid

/-- Every entry fed into the final deduplication of
get_recommendations_for_user is an unrated resource. -/
lemma recommend_sources_ids (db : DB) (now : ℤ) (user_id : String)
    (module_id : Option String) :
    ∀ e ∈ ((if 3 ≤ (get_user_ratings db user_id).length then
          get_collaborative_recommendations db
            (find_similar_users db user_id (ratingsMapOf (get_user_ratings db user_id)))
            (ratedIds db user_id) module_id
        else []) ++
        (match module_id with
         | some m => get_content_based_recommendations db m (ratedIds db user_id)
         | none => []) ++
        ((get_trending_resources db now module_id 5).filterMap fun r =>
          if r.id ∉ ratedIds db user_id then
            some { id := r.id, average_rating := r.average_rating,
                   rating_count := r.rating_count,
                   recommendation_score := 0, recommendation_type := "trending" }
          else none)),
      e.id ∉ ratedIds db user_id := by
  intro e he
  rcases List.mem_append.mp he with h12 | h3
  · rcases List.mem_append.mp h12 with h1 | h2
    · by_cases hgate : 3 ≤ (get_user_ratings db user_id).length
      · rw [if_pos hgate] at h1
        exact collab_entries_ids db _ _ module_id e h1
      · rw [if_neg hgate] at h1
        simp at h1
    · cases module_id with
      | none => simp at h2
      | some m => exact content_entries_ids db m _ e h2
  · rw [List.mem_filterMap] at h3
    obtain ⟨rsc, hrsc, hif⟩ := h3
    by_cases hid : rsc.id ∉ ratedIds db user_id
    · rw [if_pos hid] at hif
      have heid : e.id = rsc.id := by
        have := Option.some.inj hif
        rw [← this]
      rw [heid]
      exact hid
    · rw [if_neg hid] at hif
      simp at hif

/-- Generic facts about the dedup-sort-truncate tail of
get_recommendations_for_user. -/
lemma recommend_pipeline_ids (L : List RecEntry) (le : RecEntry → RecEntry → Bool)
    (limit : ℕ) (P : String → Prop) (hL : ∀ e ∈ L, P e.id) :
    (∀ e ∈ ((dedupById L []).mergeSort le).take limit, P e.id) ∧
    ((((dedupById L []).mergeSort le).take limit).map (·.id)).Nodup := by
  constructor
  · intro e he
    have h1 := List.mem_of_mem_take he
    have h2 := (List.mergeSort_perm _ le).mem_iff.mp h1
    exact hL e (mem_dedupById L [] e h2)
  · have hnodup : ((dedupById L []).map (·.id)).Nodup := (nodup_dedupById L []).1
    have hperm : List.Perm (((dedupById L []).mergeSort le).map (fun e => e.id))
        ((dedupById L []).map (fun e => e.id)) :=
      (List.mergeSort_perm _ le).map _
    have hnodup2 := hperm.nodup_iff.mpr hnodup
    have hsub : List.Sublist
        ((((dedupById L []).mergeSort le).take limit).map (fun e => e.id))
        (((dedupById L []).mergeSort le).map (fun e => e.id)) :=
      (List.take_sublist _ _).map _
    exact List.Nodup.sublist hsub hnodup2

/-- Trending on the example store with the recommender's internal limit 5. -/
lemma exDb5_trending_eval5 : get_trending_resources exDb5 0 none 5 = [exResA, exResB] := by
  have h35a : ((3.5:ℚ) ≤ 4) := by norm_num
  have h35b : ((3.5:ℚ) ≤ 5) := by norm_num
  have h55 : (5 + 5 : ℚ) = 10 := by norm_num
  have h102 : (10 : ℚ) / 2 = 5 := by norm_num
  simp [get_trending_resources, trendGroups, recentValues, recentRatings,
    firstOccurrences, exDb5, exResA, exResB, trendLE, mergeSort_pair,
    moduleMatches, h35a, h35b, h55, h102, List.contains]

/-- Concrete evaluation of the recommender for user u1 on the example
store: only the trending entry for the unrated resource B survives. -/
lemma exDb5_recommend_eval :
    get_recommendations_for_user exDb5 0 "u1" none 10 = [exRecB] := by
  have hur : get_user_ratings exDb5 "u1" =
      [{ user_id := "u1", resource_id := "A", module_id := none, rating := 4,
         updated_at := 100 }] := by
    simp [get_user_ratings, exDb5]
  have hrated : ratedIds exDb5 "u1" = ["A"] := by
    simp [ratedIds, hur]
  unfold get_recommendations_for_user
  rw [hur, hrated, exDb5_trending_eval5]
  simp [dedupById, exRecB, exResA, exResB]

/-! Claim theorems. -/

/-- C1 (amended): after every successful rate_resource call on a resource
present in the store, the stored average_rating equals the arithmetic mean
of the resource's current ratings rounded to one decimal digit -- the source
stores round(average, 1), not the exact mean -- and rating_count equals
their exact count. -/
theorem C1_average_is_rounded_mean (db : DB) (now : ℤ) (u res : String)
    (rating : ℚ) (mid : Option String)
    (h1 : 1 ≤ rating) (h5 : rating ≤ 5)
    (hex : (storedResource db res).isSome = true) :
    (rate_resource db now u res rating mid).1 = RateResult.success rating ∧
    (storedResource (rate_resource db now u res rating mid).2 res).map (·.average_rating) =
      some (round1
        ((valuesFor (rate_resource db now u res rating mid).2.user_ratings res).sum /
          (valuesFor (rate_resource db now u res rating mid).2.user_ratings res).length)) ∧
    (storedResource (rate_resource db now u res rating mid).2 res).map (·.rating_count) =
      some (valuesFor (rate_resource db now u res rating mid).2.user_ratings res).length := by
  have hvalid : ¬(rating < 1 ∨ rating > 5) := by
    push_neg
    exact ⟨h1, h5⟩
  obtain ⟨ha, hb, _, _⟩ := rate_resource_stored_average db now u res rating mid hvalid hex
  refine ⟨?_, ha, hb⟩
  simp [rate_resource, if_neg hvalid]

/-- C1 witness: a first rating of 1 on the example store. -/
theorem C1_witness :
    (rate_resource exDb1 0 "u1" "R" 1 none).1 = RateResult.success 1 ∧
    (storedResource (rate_resource exDb1 0 "u1" "R" 1 none).2 "R").map (·.average_rating) =
      some (round1
        ((valuesFor (rate_resource exDb1 0 "u1" "R" 1 none).2.user_ratings "R").sum /
          (valuesFor (rate_resource exDb1 0 "u1" "R" 1 none).2.user_ratings "R").length)) ∧
    (storedResource (rate_resource exDb1 0 "u1" "R" 1 none).2 "R").map (·.rating_count) =
      some (valuesFor (rate_resource exDb1 0 "u1" "R" 1 none).2.user_ratings "R").length :=
  C1_average_is_rounded_mean exDb1 0 "u1" "R" 1 none (by norm_num) (by norm_num) (by decide)

/-- C1 counterexample: with current ratings 1, 1, 2 the exact arithmetic
mean is 4/3, but the stored average_rating is the rounded 13/10; the stored
value is not the exact mean, refuting the claim as stated. -/
theorem C1_counterexample :
    valuesFor exDb1c.user_ratings "R" = [1, 1, 2] ∧
    (storedResource exDb1c "R").map (·.average_rating) = some (13/10) ∧
    (storedResource exDb1c "R").map (·.average_rating) ≠
      some ((valuesFor exDb1c.user_ratings "R").sum /
        ((valuesFor exDb1c.user_ratings "R").length : ℚ)) := by
  rw [exDb1c_eval]
  refine ⟨by simp [valuesFor], by simp [storedResource], ?_⟩
  simp [valuesFor, storedResource]
  norm_num

/-- C2: when a user rates the same resource twice (both ratings valid, the
store well formed, the resource present), the ratings collection holds a
single document for the (user_id, resource_id) pair carrying the second
value; the resource's rating documents from other users are untouched; and
the recomputed stored average is the rounded mean of the current rating
values, to which only the surviving second-value document contributes. -/
theorem C2_upsert_overwrites (db : DB) (t1 t2 : ℤ) (u res : String) (v1 v2 : ℚ)
    (mid1 mid2 : Option String)
    (h11 : 1 ≤ v1) (h15 : v1 ≤ 5) (h21 : 1 ≤ v2) (h25 : v2 ≤ 5)
    (hw : KeysUnique db.user_ratings)
    (hex : (storedResource db res).isSome = true) :
    ((rateTwice db t1 t2 u res v1 v2 mid1 mid2).user_ratings.filter
        (ratingKey u res)).map (·.rating) = [v2] ∧
    (rateTwice db t1 t2 u res v1 v2 mid1 mid2).user_ratings.filter
        (fun d => decide (d.resource_id = res ∧ d.user_id ≠ u)) =
      db.user_ratings.filter (fun d => decide (d.resource_id = res ∧ d.user_id ≠ u)) ∧
    (storedResource (rateTwice db t1 t2 u res v1 v2 mid1 mid2) res).map (·.average_rating) =
      some (round1
        ((valuesFor (rateTwice db t1 t2 u res v1 v2 mid1 mid2).user_ratings res).sum /
          (valuesFor (rateTwice db t1 t2 u res v1 v2 mid1 mid2).user_ratings res).length)) := by
  have hvalid1 : ¬(v1 < 1 ∨ v1 > 5) := by
    push_neg
    exact ⟨h11, h15⟩
  have hvalid2 : ¬(v2 < 1 ∨ v2 > 5) := by
    push_neg
    exact ⟨h21, h25⟩
  obtain ⟨_, _, hex1, hr1⟩ := rate_resource_stored_average db t1 u res v1 mid1 hvalid1 hex
  obtain ⟨havg2, _, _, hr2⟩ :=
    rate_resource_stored_average (rate_resource db t1 u res v1 mid1).2 t2 u res v2 mid2
      hvalid2 hex1
  have hw1 : KeysUnique (rate_resource db t1 u res v1 mid1).2.user_ratings := by
    rw [hr1]
    exact keysUnique_upsertRating _ _ _ _ ⟨rfl, rfl⟩ hw
  have hq : ∀ x : RatingDoc, ratingKey u res x = true →
      (fun d => decide (d.resource_id = res ∧ d.user_id ≠ u)) x = false := by
    intro x hx
    have hx2 : x.user_id = u ∧ x.resource_id = res := by
      simpa [ratingKey] using hx
    simp [hx2.1]
  refine ⟨?_, ?_, havg2⟩
  · unfold rateTwice
    rw [hr2, filter_key_upsertRating _ u res _ hw1 (by simp [ratingKey])]
    simp
  · unfold rateTwice
    rw [hr2, filter_upsertRating_of_disjoint _ u res _ _ hq (by simp), hr1,
      filter_upsertRating_of_disjoint _ u res _ _ hq (by simp)]

/-- C2 witness: rating 2 then 5 on the example store. -/
theorem C2_witness :
    ((rateTwice exDb1 0 0 "u" "R" 2 5 none none).user_ratings.filter
        (ratingKey "u" "R")).map (·.rating) = [5] ∧
    (rateTwice exDb1 0 0 "u" "R" 2 5 none none).user_ratings.filter
        (fun d => decide (d.resource_id = "R" ∧ d.user_id ≠ "u")) =
      exDb1.user_ratings.filter (fun d => decide (d.resource_id = "R" ∧ d.user_id ≠ "u")) ∧
    (storedResource (rateTwice exDb1 0 0 "u" "R" 2 5 none none) "R").map (·.average_rating) =
      some (round1
        ((valuesFor (rateTwice exDb1 0 0 "u" "R" 2 5 none none).user_ratings "R").sum /
          (valuesFor (rateTwice exDb1 0 0 "u" "R" 2 5 none none).user_ratings "R").length)) :=
  C2_upsert_overwrites exDb1 0 0 "u" "R" 2 5 none none
    (by norm_num) (by norm_num) (by norm_num) (by norm_num)
    List.Pairwise.nil (by decide)

/-- C7: rate_resource called with a rating outside 1..5 returns an error and
mutates no state: the returned store is the input store, so no rating
document is written or changed and every resource's stored average_rating
and rating_count are unchanged. -/
theorem C7_invalid_rating_rejected_without_mutation (db : DB) (now : ℤ)
    (u res : String) (rating : ℚ) (mid : Option String)
    (h : rating < 1 ∨ rating > 5) :
    rate_resource db now u res rating mid =
      (RateResult.error "Rating must be between 1 and 5", db) := by
  unfold rate_resource
  rw [if_pos h]

/-- C7 witness: rating 6 on an empty store. -/
theorem C7_witness :
    rate_resource { user_ratings := [], resources := [] } 0 "u" "r" 6 none =
      (RateResult.error "Rating must be between 1 and 5",
        { user_ratings := [], resources := [] }) :=
  C7_invalid_rating_rejected_without_mutation _ 0 "u" "r" 6 none (Or.inr (by norm_num))

/-- C3: when two rating dicts share fewer than 2 rated resource ids, the
cosine similarity is 0, regardless of the stored rating values. -/
theorem C3_similarity_zero_on_small_overlap (a b : RatingsMap)
    (h : (keysOf a ∩ keysOf b).card < 2) :
    cosine_similarity a b = 0 := by
  unfold cosine_similarity
  rw [if_pos h]

/-- C3 witness: two users rating the single common resource identically
still get similarity 0. -/
theorem C3_witness :
    ((keysOf [("x", (5:ℚ))] ∩ keysOf [("x", (5:ℚ))]).card < 2) ∧
      cosine_similarity [("x", (5:ℚ))] [("x", (5:ℚ))] = 0 :=
  ⟨by decide, C3_similarity_zero_on_small_overlap _ _ (by decide)⟩

/-- C4 (amended): the proximity bonus applies only when the floored
whole-day difference (exam_date - now).days is at least 1, not whenever
exam_date > now: with a parseable exam date and 0 < daysUntil, the score is
the no-exam score plus the bonus 100 / (1 + days/7), scaled by the mood and
energy multipliers applied after the additive terms. -/
theorem C4_amended_proximity_bonus (now t : ℤ) (request : StudyDecisionRequest)
    (m : ModuleInput) (h1 : m.examDate = some (some t)) (h2 : 0 < daysUntil now t) :
    calculate_module_score now request m =
      calculate_module_score now request { m with examDate := none } +
        100 / (1 + (daysUntil now t : ℚ) / 7) * moodMultiplier request.mood *
          ((request.energyLevel : ℚ) / 10) := by
  simp only [calculate_module_score, examProximityBonus, h1, if_pos h2]
  ring

/-- C4 witness: an exam exactly one day ahead earns the bonus. -/
theorem C4_witness :
    exMod4w.examDate = some (some 86400) ∧ 0 < daysUntil 0 86400 ∧
    calculate_module_score 0 exReq4w exMod4w =
      calculate_module_score 0 exReq4w { exMod4w with examDate := none } +
        100 / (1 + (daysUntil 0 86400 : ℚ) / 7) * moodMultiplier exReq4w.mood *
          ((exReq4w.energyLevel : ℚ) / 10) :=
  ⟨rfl, by decide, C4_amended_proximity_bonus 0 86400 exReq4w exMod4w rfl (by decide)⟩

/-- C4 counterexample: an exam date one hour in the future is strictly later
than now, yet the score carries no proximity bonus, because
(exam_date - now).days is 0 and the source tests days > 0; the claim's
predicted score differs from the computed one. -/
theorem C4_counterexample :
    ((0:ℤ) < 3600) ∧
    examProximityBonus 0 (some (some 3600)) = 0 ∧
    calculate_module_score 0 exReq4 exMod4 ≠
      calculate_module_score 0 exReq4 { exMod4 with examDate := none } +
        100 / (1 + (daysUntil 0 3600 : ℚ) / 7) * moodMultiplier exReq4.mood *
          ((exReq4.energyLevel : ℚ) / 10) := by
  refine ⟨by norm_num, ?_, ?_⟩
  · have hd : daysUntil 0 3600 = 0 := by decide
    simp [examProximityBonus, hd]
  · have hd : daysUntil 0 3600 = 0 := by decide
    have hmood : moodMultiplier "medium" = 1 := by simp [moodMultiplier]; norm_num
    simp only [calculate_module_score, examProximityBonus, exMod4, exReq4, hd, hmood]
    norm_num

/-- C9: get_recommendation returns no StudyDecision exactly when the request
carries an empty module list -- selecting the top module indexes the empty
score list -- so a nonempty modules list is an unstated precondition of the
public scorer interface. -/
theorem C9_empty_modules_precondition
    (llm : String → String → ℤ → StudyDecisionRequest → ℚ → String)
    (now : ℤ) (request : StudyDecisionRequest) :
    get_recommendation llm now request = none ↔ request.modules = [] :=
  get_recommendation_eq_none_iff llm now request

/-- C9 witness: the empty-module request fails. -/
theorem C9_witness : get_recommendation llm0 0 exReq9 = none :=
  (C9_empty_modules_precondition llm0 0 exReq9).mpr rfl

/-- C10: a present but unparseable examDate string is silently treated as no
exam: the module's score and reason are those of the same module with no
exam date (no proximity bonus, no exam reason), and the call still returns a
complete StudyDecision. -/
theorem C10_unparseable_exam_date_ignored
    (llm : String → String → ℤ → StudyDecisionRequest → ℚ → String)
    (now : ℤ) (request : StudyDecisionRequest) (m : ModuleInput)
    (h : m.examDate = some none) :
    calculate_module_score now request m =
        calculate_module_score now request { m with examDate := none } ∧
    get_reason now m request = get_reason now { m with examDate := none } request ∧
    (request.modules ≠ [] → (get_recommendation llm now request).isSome = true) := by
  refine ⟨?_, ?_, ?_⟩
  · simp [calculate_module_score, examProximityBonus, h]
  · simp [get_reason, h]
  · intro hne
    rw [← Option.ne_none_iff_isSome]
    intro hcontr
    exact hne ((get_recommendation_eq_none_iff llm now request).mp hcontr)

/-- C10 witness: an unparseable exam date on a concrete module and request. -/
theorem C10_witness :
    calculate_module_score 0 exReq10 exMod10 =
        calculate_module_score 0 exReq10 { exMod10 with examDate := none } ∧
    get_reason 0 exMod10 exReq10 =
        get_reason 0 { exMod10 with examDate := none } exReq10 ∧
    (get_recommendation llm0 0 exReq10).isSome = true :=
  ⟨(C10_unparseable_exam_date_ignored llm0 0 exReq10 exMod10 rfl).1,
   (C10_unparseable_exam_date_ignored llm0 0 exReq10 exMod10 rfl).2.1,
   (C10_unparseable_exam_date_ignored llm0 0 exReq10 exMod10 rfl).2.2 (by decide)⟩

/-- C8: cosine similarity is symmetric, and the self-similarity of a rating
map whose ratings lie in 1..5 and cover at least 2 rated resources is
exactly 1. -/
theorem C8_similarity_symmetric_and_self_one :
    (∀ a b : RatingsMap, cosine_similarity a b = cosine_similarity b a) ∧
    (∀ a : RatingsMap, (∀ p ∈ a, 1 ≤ p.2 ∧ p.2 ≤ 5) → 2 ≤ (keysOf a).card →
      cosine_similarity a a = 1) := by
  constructor
  · intro a b
    simp only [cosine_similarity, Finset.inter_comm (keysOf b) (keysOf a)]
    by_cases hcard : (keysOf a ∩ keysOf b).card < 2
    · simp [hcard]
    · simp only [if_neg hcard]
      simp [mul_comm, or_comm]
  · intro a hvals hcard
    have hself : keysOf a ∩ keysOf a = keysOf a := Finset.inter_self _
    have hpos : ∀ k ∈ keysOf a, 0 < dval a k := by
      intro k hk
      obtain ⟨p, hp, _, hdv⟩ := dval_mem_of_key a k hk
      have h1 := (hvals p hp).1
      rw [hdv]
      linarith
    have hSpos : 0 < (Finset.sum (keysOf a) fun k => dval a k ^ 2 : ℚ) := by
      apply Finset.sum_pos
      · intro k hk
        exact pow_pos (hpos k hk) 2
      · exact Finset.card_pos.mp (lt_of_lt_of_le (by norm_num) hcard)
    simp only [cosine_similarity, hself]
    rw [if_neg (by omega : ¬ (keysOf a).card < 2)]
    have hmag :
        Real.sqrt ((Finset.sum (keysOf a) fun k => dval a k ^ 2 : ℚ)) ≠ 0 := by
      rw [ne_eq, Real.sqrt_eq_zero (by positivity)]
      exact_mod_cast hSpos.ne'
    rw [if_neg (by tauto)]
    have hdot : (Finset.sum (keysOf a) fun k => dval a k * dval a k) =
        Finset.sum (keysOf a) fun k => dval a k ^ 2 :=
      Finset.sum_congr rfl fun k _ => (pow_two (dval a k)).symm
    rw [hdot, Real.mul_self_sqrt (by positivity)]
    rw [div_self (by exact_mod_cast hSpos.ne')]

/-- C8 witness: symmetry at concrete maps, and self-similarity 1 on a
two-resource map. -/
theorem C8_witness :
    cosine_similarity exMapA [("z", 2)] = cosine_similarity [("z", 2)] exMapA ∧
    cosine_similarity exMapA exMapA = 1 :=
  ⟨C8_similarity_symmetric_and_self_one.1 exMapA [("z", 2)],
   C8_similarity_symmetric_and_self_one.2 exMapA (by decide) (by decide)⟩

/-- C5 (amended): trending considers only the last 7 days of ratings (the
result is invariant under discarding older ratings); every returned
resource has at least one recent rating and recent average at least 3.5; at
most limit resources are returned; and the output follows the resource
collection's storage order (its id sequence is a sublist of the
collection's id sequence) -- the count-descending, average-descending order
only selects which 2*limit candidate ids are considered, it does not order
the returned list. -/
theorem C5_trending_properties (db : DB) (now : ℤ) (module_id : Option String)
    (limit : ℕ) :
    (get_trending_resources db now module_id limit).length ≤ limit ∧
    (∀ r ∈ get_trending_resources db now module_id limit,
      recentValues db now r.id ≠ [] ∧
      (3.5:ℚ) ≤ (recentValues db now r.id).sum / (recentValues db now r.id).length) ∧
    ((get_trending_resources db now module_id limit).map (·.id)).Sublist
      (db.resources.map (·.id)) ∧
    get_trending_resources (DB.mk (recentRatings db now) db.resources) now module_id
        limit =
      get_trending_resources db now module_id limit := by
  refine ⟨?_, ?_, ?_, ?_⟩
  · exact (List.length_take_le _ _).trans (le_refl _)
  · intro r hr
    have hr2 : r ∈ (get_trending_resources db now module_id limit) := hr
    unfold get_trending_resources at hr2
    have hr3 := List.mem_of_mem_take hr2
    have hr4 := (List.mem_filter.mp hr3).2
    rw [Bool.and_eq_true] at hr4
    have hid : r.id ∈ (((
        ((trendGroups db now).filter fun g =>
          decide ((3.5:ℚ) ≤ g.avg_rating)).mergeSort trendLE).take (limit * 2)).map
            (·.resource_id)) := List.elem_iff.mp hr4.1
    rw [List.mem_map] at hid
    obtain ⟨g, hg, hgid⟩ := hid
    have hgsorted := List.mem_of_mem_take hg
    have hgfilter : g ∈ (trendGroups db now).filter fun g =>
        decide ((3.5:ℚ) ≤ g.avg_rating) :=
      (List.mergeSort_perm _ trendLE).mem_iff.mp hgsorted
    have hgavg : (3.5:ℚ) ≤ g.avg_rating :=
      of_decide_eq_true (List.mem_filter.mp hgfilter).2
    have hggroups : g ∈ trendGroups db now := (List.mem_filter.mp hgfilter).1
    unfold trendGroups at hggroups
    rw [List.mem_map] at hggroups
    obtain ⟨rid, hrid, hgdef⟩ := hggroups
    have hridrec : rid ∈ (recentRatings db now).map (·.resource_id) :=
      mem_firstOccurrences rid _ [] hrid
    rw [List.mem_map] at hridrec
    obtain ⟨d, hd, hdrid⟩ := hridrec
    have hne : recentValues db now rid ≠ [] := by
      intro hnil
      have hdm : d.rating ∈ recentValues db now rid := by
        unfold recentValues
        exact List.mem_map_of_mem _ (List.mem_filter.mpr ⟨hd, by simp [hdrid]⟩)
      rw [hnil] at hdm
      exact absurd hdm (List.not_mem_nil _)
    have hridr : rid = r.id := by
      rw [← hgid, ← hgdef]
    rw [← hridr]
    constructor
    · exact hne
    · have : g.avg_rating =
          (recentValues db now rid).sum / (recentValues db now rid).length := by
        rw [← hgdef]
      rw [← this]
      exact hgavg
  · unfold get_trending_resources
    exact List.Sublist.map _ ((List.take_sublist _ _).trans (List.filter_sublist _))
  · have hidem : recentRatings (DB.mk (recentRatings db now) db.resources) now =
        recentRatings db now := by
      simp [recentRatings, List.filter_filter]
    unfold get_trending_resources trendGroups recentValues
    rw [hidem]

/-- C5 counterexample: resource A (one recent rating) precedes resource B
(two recent ratings) in the collection, and trending returns them in
collection order A, B -- not ordered by recent rating count descending. -/
theorem C5_counterexample :
    (get_trending_resources exDb5 0 none 10).map (·.id) = ["A", "B"] ∧
    (recentValues exDb5 0 "A").length < (recentValues exDb5 0 "B").length := by
  constructor
  · rw [exDb5_trending_eval]
    simp [exResA, exResB]
  · simp [recentValues, recentRatings, exDb5]

/-- C5 witness: the amended theorem instantiated at the example store and
its returned resource A. -/
theorem C5_witness :
    recentValues exDb5 0 exResA.id ≠ [] ∧
    (3.5:ℚ) ≤ (recentValues exDb5 0 exResA.id).sum /
      (recentValues exDb5 0 exResA.id).length :=
  (C5_trending_properties exDb5 0 none 10).2.1 exResA
    (by rw [exDb5_trending_eval]; simp)

/-- C6: the recommendation list never contains a resource the user already
rated, and contains no two entries with the same resource id. -/
theorem C6_recommend_unrated_and_distinct (db : DB) (now : ℤ) (user_id : String)
    (module_id : Option String) (limit : ℕ) (r : RecEntry)
    (h : r ∈ get_recommendations_for_user db now user_id module_id limit) :
    r.id ∉ ratedIds db user_id ∧
    ((get_recommendations_for_user db now user_id module_id limit).map (·.id)).Nodup := by
  constructor
  · exact (recommend_pipeline_ids _ _ limit (fun i => i ∉ ratedIds db user_id)
      (recommend_sources_ids db now user_id module_id)).1 r h
  · exact (recommend_pipeline_ids _ _ limit (fun i => i ∉ ratedIds db user_id)
      (recommend_sources_ids db now user_id module_id)).2

/-- C6 witness: on the example store user u1 has rated A, and the returned
list is exactly the trending entry for B. -/
theorem C6_witness :
    exRecB.id ∉ ratedIds exDb5 "u1" ∧
    ((get_recommendations_for_user exDb5 0 "u1" none 10).map (·.id)).Nodup :=
  C6_recommend_unrated_and_distinct exDb5 0 "u1" none 10 exRecB
    (by rw [exDb5_recommend_eval]; simp)

end StudentUpgrade
